import Mathlib

/-!
Verification development for the VAE notebook (`src/main.ipynb`): a shallow
embedding of its hyperparameters, the shape semantics of its TensorFlow graph,
the value-level semantics of the encoder, decoder and loss, the checkpoint
startup logic, and the name environment of the training-loop log statement.
All stochastic draws of the program (the Gaussian `noise` tensor and the
dropout masks) are explicit inputs of the embedded functions, and float
arithmetic is embedded as exact real arithmetic.
-/

namespace VAE

/-! ## Hyperparameters (notebook cell "Hyperparameters") -/

def image_size : ℕ := 28
def image_channel : ℕ := 1
def image_size_flat : ℕ := image_size * image_size * image_channel

def n_latent : ℕ := 8
/-- Source: `decoder_units = int(32 * image_channel / 2)`. -/
def decoder_units : ℕ := 32 * image_channel / 2

def batch_size : ℕ := 24
def iterations : ℕ := 10000
def log_step : ℕ := 100
def viz_step : ℕ := 500

/-- Dropout keep probability, embedded as an exact real. -/
noncomputable def keep_prob : ℝ := 0.8

/-! ## Shape semantics of the graph operations

Shapes are lists of dimensions `[batch, ...]`.  Each function returns the
static output shape of the corresponding TensorFlow operation; `none` models a
graph-construction error.  `padding='SAME'` gives `ceil(n / stride)` for a
strided convolution and `n * stride` for a strided transposed convolution. -/

/-- Output length of a dimension of size `n` under a SAME-padded convolution
with the given stride: `ceil(n / stride)`. -/
def convOutLen (n stride : ℕ) : ℕ := (n + stride - 1) / stride

/-- Shape of `tf.layers.conv2d(..., padding='SAME')` on a rank-4 input. -/
def conv2dShape (s : List ℕ) (filters stride : ℕ) : Option (List ℕ) :=
  match s with
  | [b, h, w, _c] => some [b, convOutLen h stride, convOutLen w stride, filters]
  | _ => none

/-- Shape of `tf.layers.conv2d_transpose(..., padding='SAME')` on a rank-4
input: each spatial dimension is multiplied by the stride. -/
def conv2dTransposeShape (s : List ℕ) (filters stride : ℕ) : Option (List ℕ) :=
  match s with
  | [b, h, w, _c] => some [b, h * stride, w * stride, filters]
  | _ => none

/-- Shape of `tf.contrib.layers.flatten`: all dimensions but the batch
dimension are merged. -/
def flattenShape (s : List ℕ) : Option (List ℕ) :=
  match s with
  | b :: rest => some [b, rest.prod]
  | [] => none

/-- Shape of `tf.layers.dense` on a rank-2 input. -/
def denseShape (s : List ℕ) (units : ℕ) : Option (List ℕ) :=
  match s with
  | [b, _d] => some [b, units]
  | _ => none

/-- Shape of `tf.reshape(x, [-1, d1, ..., dk])`: the leading `-1` dimension is
inferred from the total element count; the reshape is an error when the count
is not divisible by the product of the given dimensions. -/
def reshapeInferFirst (total : ℕ) (rest : List ℕ) : Option (List ℕ) :=
  if rest.prod ≠ 0 ∧ total % rest.prod = 0 then some (total / rest.prod :: rest) else none

/-- Shape of a binary elementwise operation on two tensors of identical
shape (the only case the notebook graph uses). -/
def elementwiseShape (a b : List ℕ) : Option (List ℕ) :=
  if a = b then some a else none

/-- Static shapes of the four latent tensors the encoder builds. -/
structure EncoderShapes where
  mean : List ℕ
  stddev : List ℕ
  noise : List ℕ
  z : List ℕ
  deriving DecidableEq

/-- Shape semantics of `encoder(X)` (notebook cell "The Encoder") on a
placeholder batch of shape `[b, image_size_flat]`:
reshape to `[-1, 28, 28, 1]`, three SAME convolutions with 64 filters
(strides 2, 2, 1), flatten, two dense projections to `n_latent`, a noise
tensor of shape `[tf.shape(X)[0], n_latent]`, and
`z = mean + noise * exp(stddev)`. -/
def encoderShapes (b : ℕ) : Option EncoderShapes := do
  let x0 := [b, image_size_flat]
  let x1 ← reshapeInferFirst x0.prod [image_size, image_size, image_channel]
  let x2 ← conv2dShape x1 64 2
  let x3 ← conv2dShape x2 64 2
  let x4 ← conv2dShape x3 64 1
  let xf ← flattenShape x4
  let meanS ← denseShape xf n_latent
  let stdS ← denseShape xf n_latent
  let noiseS ← match xf with
    | b2 :: _ => some [b2, n_latent]
    | [] => none
  let prodS ← elementwiseShape noiseS stdS
  let zS ← elementwiseShape meanS prodS
  pure ⟨meanS, stdS, noiseS, zS⟩

/-- Shape semantics of `decoder(z)` (notebook cell "The Decoder") on a latent
batch of shape `s`: two dense layers both applied to `z` (the first output is
discarded), `shape = X.get_shape()[1].value // 2` computed from the static
second dimension of the second dense output, a reshape to
`[-1, shape, shape, image_channel]`, three SAME transposed convolutions with
64 filters (strides 2, 1, 1), flatten, a dense layer to `image_size_flat`,
and a final reshape to `[-1, 28, 28, 1]`. -/
def decoderShapes (s : List ℕ) : Option (List ℕ) := do
  let _d1 ← denseShape s decoder_units
  let d2 ← denseShape s (decoder_units * 2)
  let sdim ← d2.get? 1
  let half := sdim / 2
  let r ← reshapeInferFirst d2.prod [half, half, image_channel]
  let t1 ← conv2dTransposeShape r 64 2
  let t2 ← conv2dTransposeShape t1 64 1
  let t3 ← conv2dTransposeShape t2 64 1
  let f ← flattenShape t3
  let o ← denseShape f image_size_flat
  reshapeInferFirst o.prod [image_size, image_size, image_channel]

/-! ## Value semantics of the graph operations

A tensor is its row-major flat buffer, a `List ℝ`, with the dimensions passed
alongside; `tf.reshape` and `tf.contrib.layers.flatten` leave the buffer
unchanged and only reinterpret the dimensions, exactly as in TensorFlow.
Out-of-range reads return the junk value `0` (they never occur in-range
computations).  Stochastic operations take their random draw as an explicit
argument: the dropout keep/drop decisions as a `ℕ → Bool` mask over the
buffer, the Gaussian sample of the encoder as a `ℕ → ℝ` function. -/

/-- Element of a flat buffer at an index, with junk default `0`. -/
def nth (l : List ℝ) (i : ℕ) : ℝ := l.getD i 0

/-- Source helper `leakyReLU(X, alpha)`: `tf.maximum(X, tf.multiply(X, alpha))`.
Every call site of the notebook uses the default `alpha = 0.3`. -/
noncomputable def leakyReLU (x alpha : ℝ) : ℝ := max x (x * alpha)

/-- Value of `tf.nn.relu`, the default activation of the `conv2d` and
`conv2d_transpose` helpers. -/
noncomputable def reluV (x : ℝ) : ℝ := max x 0

/-- Value of `tf.nn.sigmoid`, the activation of the decoder's output layer. -/
noncomputable def sigmoidV (x : ℝ) : ℝ := 1 / (1 + Real.exp (-x))

/-- Value of `tf.nn.dropout(layer, keep_prob)` given the random keep/drop mask:
kept elements are rescaled by `1 / keep_prob`, dropped elements become `0`. -/
noncomputable def dropoutData (kp : ℝ) (mask : ℕ → Bool) (data : List ℝ) : List ℝ :=
  (List.range data.length).map fun i => if mask i then nth data i / kp else 0

/-- Value of `tf.layers.dense(X, units, activation)` on a batch of `b` rows of
width `d`: row-major output of `act (X·W + bias)`, with kernel `w` indexed
`(input feature, unit)` as in TensorFlow, which stores the kernel with shape
`(d, units)`. -/
noncomputable def denseData (w : ℕ → ℕ → ℝ) (bias : ℕ → ℝ) (act : ℝ → ℝ)
    (units b d : ℕ) (data : List ℝ) : List ℝ :=
  (List.range (b * units)).map fun idx =>
    let ex := idx / units
    let u := idx % units
    act ((∑ t in Finset.range d, nth data (ex * d + t) * w t u) + bias u)

/-- Value of `tf.layers.conv2d(..., padding='SAME')` on a batch of `b` feature
maps of height `h`, width `wd` and `c` channels, with `f` filters of size
`k × k`, kernel `w` indexed `(row, col, in channel, filter)` as in TensorFlow's
kernel shape `(k, k, c, f)`.  SAME padding pads each spatial dimension by
`max((out-1)*stride + k - n, 0)` in total, half of it (rounded down) before the
data. -/
noncomputable def conv2dData (w : ℕ → ℕ → ℕ → ℕ → ℝ) (bias : ℕ → ℝ) (act : ℝ → ℝ)
    (k stride b h wd c f : ℕ) (data : List ℝ) : List ℝ :=
  let oh := convOutLen h stride
  let ow := convOutLen wd stride
  let padH := ((oh - 1) * stride + k - h) / 2
  let padW := ((ow - 1) * stride + k - wd) / 2
  (List.range (b * (oh * ow * f))).map fun idx =>
    let ex := idx / (oh * ow * f)
    let r := idx % (oh * ow * f)
    let oi := r / (ow * f)
    let r2 := r % (ow * f)
    let oj := r2 / f
    let fo := r2 % f
    act ((∑ di in Finset.range k, ∑ dj in Finset.range k, ∑ ci in Finset.range c,
      w di dj ci fo *
        (if oi * stride + di < padH ∨ oj * stride + dj < padW then 0
         else if oi * stride + di - padH < h ∧ oj * stride + dj - padW < wd then
           nth data (ex * (h * wd * c) + (oi * stride + di - padH) * (wd * c)
             + (oj * stride + dj - padW) * c + ci)
         else 0)) + bias fo)

/-- Value of `tf.layers.conv2d_transpose(..., padding='SAME')`, the gradient of
the SAME convolution that maps the `h*stride × wd*stride` output back to the
`h × wd` input: output element `(oi, oj, fo)` accumulates `w(di, dj, fo, ci) *
input(i, j, ci)` over all positions with `oi + pad = i*stride + di` (and
likewise for columns), with TensorFlow's transposed kernel shape
`(k, k, f, c)` and padding `max(k - stride, 0)` split as in the forward
convolution. -/
noncomputable def conv2dTransposeData (w : ℕ → ℕ → ℕ → ℕ → ℝ) (bias : ℕ → ℝ) (act : ℝ → ℝ)
    (k stride b h wd c f : ℕ) (data : List ℝ) : List ℝ :=
  let oh := h * stride
  let ow := wd * stride
  let padH := ((h - 1) * stride + k - h * stride) / 2
  let padW := ((wd - 1) * stride + k - wd * stride) / 2
  (List.range (b * (oh * ow * f))).map fun idx =>
    let ex := idx / (oh * ow * f)
    let r := idx % (oh * ow * f)
    let oi := r / (ow * f)
    let r2 := r % (ow * f)
    let oj := r2 / f
    let fo := r2 % f
    act ((∑ i in Finset.range h, ∑ j in Finset.range wd, ∑ ci in Finset.range c,
      ∑ di in Finset.range k, ∑ dj in Finset.range k,
        (if oi + padH = i * stride + di ∧ oj + padW = j * stride + dj then
          w di dj fo ci * nth data (ex * (h * wd * c) + i * (wd * c) + j * c + ci)
         else 0)) + bias fo)

/-! ## The encoder (notebook cell "The Encoder") -/

/-- Learnable parameters of the encoder: three convolution kernels with biases
and the two dense projections producing `mean` and the raw pre-scaling output
of the `stddev` projection. -/
structure EncoderParams where
  w1 : ℕ → ℕ → ℕ → ℕ → ℝ
  b1 : ℕ → ℝ
  w2 : ℕ → ℕ → ℕ → ℕ → ℝ
  b2 : ℕ → ℝ
  w3 : ℕ → ℕ → ℕ → ℕ → ℝ
  b3 : ℕ → ℝ
  wMean : ℕ → ℕ → ℝ
  bMean : ℕ → ℝ
  wStd : ℕ → ℕ → ℝ
  bStd : ℕ → ℝ

/-- Dropout masks of the encoder's three convolution stages, one fresh draw
per forward pass. -/
structure EncoderMasks where
  m1 : ℕ → Bool
  m2 : ℕ → Bool
  m3 : ℕ → Bool

/-- Spatial side length after the first encoder convolution (stride 2). -/
def conv1OutLen : ℕ := convOutLen image_size 2

/-- Spatial side length after the second encoder convolution (stride 2). -/
def conv2OutLen : ℕ := convOutLen conv1OutLen 2

/-- Spatial side length after the third encoder convolution (stride 1). -/
def conv3OutLen : ℕ := convOutLen conv2OutLen 1

/-- Width of the flattened encoder feature map fed to the dense projections. -/
def encFeatDim : ℕ := conv3OutLen * conv3OutLen * 64

/-- Convolutional part of `encoder(X)`: reshape to `[-1, 28, 28, 1]` (buffer
unchanged), three SAME convolutions with 64 filters and `leakyReLU`
activation (strides 2, 2, 1), each followed by dropout, then
`tf.contrib.layers.flatten` (buffer unchanged). -/
noncomputable def encoderConvFeatures (P : EncoderParams) (M : EncoderMasks)
    (b : ℕ) (data : List ℝ) : List ℝ :=
  let c1 := dropoutData keep_prob M.m1
    (conv2dData P.w1 P.b1 (fun v => leakyReLU v 0.3) 4 2 b image_size image_size image_channel 64 data)
  let c2 := dropoutData keep_prob M.m2
    (conv2dData P.w2 P.b2 (fun v => leakyReLU v 0.3) 4 2 b conv1OutLen conv1OutLen 64 64 c1)
  let c3 := dropoutData keep_prob M.m3
    (conv2dData P.w3 P.b3 (fun v => leakyReLU v 0.3) 4 1 b conv2OutLen conv2OutLen 64 64 c2)
  c3

/-- Source line `mean = tf.layers.dense(X, units=n_latent)` (linear: the
default activation of `tf.layers.dense` is none). -/
noncomputable def encoderMean (P : EncoderParams) (M : EncoderMasks)
    (b : ℕ) (data : List ℝ) : List ℝ :=
  denseData P.wMean P.bMean id n_latent b encFeatDim (encoderConvFeatures P M b data)

/-- Raw output of the dedicated `stddev` linear projection,
`tf.layers.dense(X, units=n_latent)`, before the `0.5 *` rescaling. -/
noncomputable def encoderRawStdDense (P : EncoderParams) (M : EncoderMasks)
    (b : ℕ) (data : List ℝ) : List ℝ :=
  denseData P.wStd P.bStd id n_latent b encFeatDim (encoderConvFeatures P M b data)

/-- Source line `stddev = 0.5 * tf.layers.dense(X, units=n_latent)`. -/
noncomputable def encoderStddev (P : EncoderParams) (M : EncoderMasks)
    (b : ℕ) (data : List ℝ) : List ℝ :=
  (encoderRawStdDense P M b data).map (fun v => 0.5 * v)

/-- Source line `z = mean + tf.multiply(noise, tf.exp(stddev))`, with the
`tf.random_normal([tf.shape(X)[0], n_latent])` draw passed explicitly; all
tensors involved have shape `(b, n_latent)`. -/
noncomputable def encoderZ (P : EncoderParams) (M : EncoderMasks) (noise : ℕ → ℝ)
    (b : ℕ) (data : List ℝ) : List ℝ :=
  (List.range (b * n_latent)).map fun idx =>
    nth (encoderMean P M b data) idx
      + noise idx * Real.exp (nth (encoderStddev P M b data) idx)

/-- Full `encoder(X)`: returns `(z, mean, stddev)` in the order of the source's
`return z, mean, stddev`. -/
noncomputable def encoderData (P : EncoderParams) (M : EncoderMasks) (noise : ℕ → ℝ)
    (b : ℕ) (data : List ℝ) : List ℝ × List ℝ × List ℝ :=
  (encoderZ P M noise b data, encoderMean P M b data, encoderStddev P M b data)

/-! ## The decoder (notebook cell "The Decoder") -/

/-- Learnable parameters of the decoder: the two dense expansions, three
transposed-convolution kernels and the sigmoid output layer. -/
structure DecoderParams where
  wD1 : ℕ → ℕ → ℝ
  bD1 : ℕ → ℝ
  wD2 : ℕ → ℕ → ℝ
  bD2 : ℕ → ℝ
  wT1 : ℕ → ℕ → ℕ → ℕ → ℝ
  bT1 : ℕ → ℝ
  wT2 : ℕ → ℕ → ℕ → ℕ → ℝ
  bT2 : ℕ → ℝ
  wT3 : ℕ → ℕ → ℕ → ℕ → ℝ
  bT3 : ℕ → ℝ
  wOut : ℕ → ℕ → ℝ
  bOut : ℕ → ℝ

/-- Dropout masks of the decoder's first two transposed convolutions (the
third one is built with `dropout=False`). -/
structure DecoderMasks where
  d1 : ℕ → Bool
  d2 : ℕ → Bool

/-- Static second dimension of the second dense expansion, from which the
source computes `shape = X.get_shape()[1].value // 2`. -/
def decoderReshapeSide : ℕ := decoder_units * 2 / 2

/-- Full `decoder(z)` on a latent batch of `b` rows: two dense expansions with
`leakyReLU` where the second is applied to the original `z` (the first
output `x1` is bound and then discarded, exactly as in the source), a reshape
to `[-1, shape, shape, image_channel]` (an error — `none` — when the buffer
size is not divisible, otherwise only the batch dimension is reinterpreted),
three SAME transposed convolutions with 64 filters and the helper's default
`tf.nn.relu` activation (strides 2, 1, 1; dropout on the first two only),
flatten, and a dense sigmoid layer to `image_size_flat` reshaped to the image
shape (buffer unchanged). -/
noncomputable def decoderData (P : DecoderParams) (M : DecoderMasks)
    (b : ℕ) (z : List ℝ) : Option (List ℝ) :=
  let x1 := denseData P.wD1 P.bD1 (fun v => leakyReLU v 0.3) decoder_units b n_latent z
  let x2 := denseData P.wD2 P.bD2 (fun v => leakyReLU v 0.3) (decoder_units * 2) b n_latent z
  let side := decoderReshapeSide
  let cell := side * side * image_channel
  if cell ≠ 0 ∧ b * (decoder_units * 2) % cell = 0 then
    let b2 := b * (decoder_units * 2) / cell
    let t1 := dropoutData keep_prob M.d1
      (conv2dTransposeData P.wT1 P.bT1 reluV 4 2 b2 side side image_channel 64 x2)
    let t2 := dropoutData keep_prob M.d2
      (conv2dTransposeData P.wT2 P.bT2 reluV 4 1 b2 (side * 2) (side * 2) 64 64 t1)
    let t3 := conv2dTransposeData P.wT3 P.bT3 reluV 4 1 b2 (side * 2) (side * 2) 64 64 t2
    some (denseData P.wOut P.bOut sigmoidV image_size_flat b2 (side * 2 * (side * 2) * 64) t3)
  else none

/-! ## The loss (notebook cell defining `img_loss`, `latent_loss`, `loss`) -/

/-- Broadcasting scalar-plus-tensor, as in `1.0 + 2.0 * stddev`. -/
noncomputable def scalarAdd (c : ℝ) (l : List ℝ) : List ℝ := l.map (fun v => c + v)

/-- Broadcasting scalar-times-tensor, as in `2.0 * stddev` and the leading
`-0.5 *`. -/
noncomputable def scalarMul (c : ℝ) (l : List ℝ) : List ℝ := l.map (fun v => c * v)

/-- Elementwise `tf.square`. -/
noncomputable def tSquare (l : List ℝ) : List ℝ := l.map (fun v => v ^ 2)

/-- Elementwise `tf.exp`. -/
noncomputable def tExp (l : List ℝ) : List ℝ := l.map Real.exp

/-- Elementwise tensor subtraction. -/
noncomputable def tSub (x y : List ℝ) : List ℝ := List.zipWith (fun a b => a - b) x y

/-- Elementwise tensor addition, as in `img_loss + latent_loss`. -/
noncomputable def tAdd (x y : List ℝ) : List ℝ := List.zipWith (fun a b => a + b) x y

/-- Elementwise `tf.squared_difference`. -/
noncomputable def squaredDifference (x y : List ℝ) : List ℝ :=
  List.zipWith (fun a b => (a - b) ^ 2) x y

/-- Value of `tf.reduce_sum(..., axis=1)` on a `(b, cols)` tensor: one sum per
batch row. -/
noncomputable def reduceSumAxis1 (b cols : ℕ) (l : List ℝ) : List ℝ :=
  (List.range b).map fun ex => ∑ j in Finset.range cols, nth l (ex * cols + j)

/-- Value of `tf.reduce_mean` on a rank-1 tensor. -/
noncomputable def reduceMean (l : List ℝ) : ℝ := l.sum / l.length

/-- Source line `img_loss = tf.reduce_sum(tf.squared_difference(img_reshape,
y), axis=1)` on `(b, image_size_flat)` tensors. -/
noncomputable def img_loss (b : ℕ) (img y : List ℝ) : List ℝ :=
  reduceSumAxis1 b image_size_flat (squaredDifference img y)

/-- Source line `latent_loss = -0.5 * tf.reduce_sum(1.0 + 2.0 * stddev -
tf.square(mean) - tf.exp(2.0*stddev), axis=1)` on `(b, n_latent)` tensors. -/
noncomputable def latent_loss (b : ℕ) (mean stddev : List ℝ) : List ℝ :=
  scalarMul (-0.5)
    (reduceSumAxis1 b n_latent
      (tSub (tSub (scalarAdd 1 (scalarMul 2 stddev)) (tSquare mean))
        (tExp (scalarMul 2 stddev))))

/-- Source line `loss = tf.reduce_mean(img_loss + latent_loss)`. -/
noncomputable def loss (b : ℕ) (img y mean stddev : List ℝ) : ℝ :=
  reduceMean (tAdd (img_loss b img y) (latent_loss b mean stddev))

/-- Wiring of the notebook graph: the `latent_loss` node consumes the `mean`
and `stddev` tensors returned by the `encoder(X)` call of cell
`z, mean, stddev = encoder(X)`. -/
noncomputable def graphLatentLoss (P : EncoderParams) (M : EncoderMasks) (noise : ℕ → ℝ)
    (b : ℕ) (data : List ℝ) : List ℝ :=
  latent_loss b (encoderData P M noise b data).2.1 (encoderData P M noise b data).2.2

/-! ## Checkpoint startup (notebook cell "Tensorboard") -/

/-- Observable effect of the checkpoint startup cell. -/
structure StartupEffect where
  restored : Bool
  createdDir : Bool
  deriving DecidableEq

/-- Source:
`if tf.gfile.Exists(save_path): if len(os.listdir(save_path)) > 1:
saver.restore(...)` and otherwise `tf.gfile.MakeDirs(save_path)`. -/
def checkpointStartup (dirExists : Bool) (numEntries : ℕ) : StartupEffect :=
  if dirExists then ⟨decide (1 < numEntries), false⟩ else ⟨false, true⟩

/-! ## The training-loop log statement (notebook cell "Training")

The names bound in scope when `sys.stdout.write(...)` runs are those assigned
by the preceding cells and by the loop body; the statement's argument list
references them plus `start_time`. -/

/-- Names bound in the notebook's global scope when the logging statement of
the training loop executes (imports, hyperparameters, graph nodes, session
objects, and the loop-body assignments `train_start`, `i`, `batch`,
`feed_dict`, `_loss`, `_img_loss`, `_latent_loss`, `_mean`, `_stddev`). -/
def boundNamesAtLogStatement : List String :=
  ["sys", "os", "dt", "np", "tf", "plt", "input_data", "data",
   "image_size", "image_channel", "image_size_flat", "image_shape",
   "keep_prob", "n_latent", "decoder_units",
   "learning_rate", "batch_size", "iterations", "log_step", "viz_step",
   "X", "y", "leakyReLU", "conv2d", "conv2d_transpose", "dense",
   "encoder", "decoder", "z", "mean", "stddev", "img",
   "img_reshape", "img_loss", "latent_loss", "loss", "optimizer", "train_step",
   "sess", "init", "tensorboard_path", "save_path", "logdir", "pretrained",
   "saver", "writer",
   "train_start", "i", "batch", "feed_dict",
   "_loss", "_img_loss", "_latent_loss", "_mean", "_stddev"]

/-- Names the logging statement references, in evaluation order: the write
target and the arguments of the `.format(...)` call, whose last argument is
`dt.datetime.now() - start_time`. -/
def logStatementNames : List String :=
  ["sys", "_loss", "_img_loss", "_latent_loss", "_mean", "_stddev", "dt", "start_time"]

/-- First name the logging statement references that is not bound in scope;
`some n` means evaluating the statement raises `NameError: n` before anything
is written. -/
def firstUnboundLogName : Option String :=
  logStatementNames.find? fun n => !(boundNamesAtLogStatement.contains n)

/-! ## Definitions transcribed from the specification text

These follow the spec's words, for comparison against the graph definitions
above (refinement claims). -/

/-- Spec formula `kl_loss[i] = -0.5 * sum_over_latent_dims(1 + 2*log_stddev[i]
- mean[i]^2 - exp(2*log_stddev[i]))`, reading row `i` of the `(b, n_latent)`
tensors. -/
noncomputable def specKlLoss (mean stddev : List ℝ) (i : ℕ) : ℝ :=
  -0.5 * ∑ j in Finset.range n_latent,
    (1 + 2 * nth stddev (i * n_latent + j) - (nth mean (i * n_latent + j)) ^ 2
      - Real.exp (2 * nth stddev (i * n_latent + j)))

/-- Spec formula `reconstruction_loss[i] = sum_over_pixels((reconstructed[i] -
target[i])^2)`, reading row `i` of the `(b, image_size_flat)` tensors. -/
noncomputable def specReconLoss (img y : List ℝ) (i : ℕ) : ℝ :=
  ∑ t in Finset.range image_size_flat,
    (nth img (i * image_size_flat + t) - nth y (i * image_size_flat + t)) ^ 2

/-- Spec formula `total_loss = mean_over_batch(reconstruction_loss +
kl_loss)`. -/
noncomputable def specTotalLoss (b : ℕ) (recL klL : List ℝ) : ℝ :=
  (∑ i in Finset.range b, (nth recL i + nth klL i)) / b

/-! ## Concrete parameter instances used to instantiate theorems -/

/-- Encoder parameters with every weight and bias zero. -/
def zeroEncoderParams : EncoderParams :=
  ⟨fun _ _ _ _ => 0, fun _ => 0, fun _ _ _ _ => 0, fun _ => 0, fun _ _ _ _ => 0, fun _ => 0,
   fun _ _ => 0, fun _ => 0, fun _ _ => 0, fun _ => 0⟩

/-- Encoder parameters with every weight and bias zero except the bias of the
`stddev` projection, which is the constant `1`. -/
def biasOneStdParams : EncoderParams :=
  ⟨fun _ _ _ _ => 0, fun _ => 0, fun _ _ _ _ => 0, fun _ => 0, fun _ _ _ _ => 0, fun _ => 0,
   fun _ _ => 0, fun _ => 0, fun _ _ => 0, fun _ => 1⟩

/-- Dropout masks that keep every element. -/
def allKeepMasks : EncoderMasks := ⟨fun _ => true, fun _ => true, fun _ => true⟩

/-! ## Auxiliary lemmas about flat-buffer indexing -/

theorem nth_map_range (f : ℕ → ℝ) {n k : ℕ} (h : k < n) :
    nth ((List.range n).map f) k = f k := by
  simp [nth, List.getD_eq_getElem?_getD, List.getElem?_map, List.getElem?_range, h]

theorem nth_map (f : ℝ → ℝ) {l : List ℝ} {k : ℕ} (h : k < l.length) :
    nth (l.map f) k = f (nth l k) := by
  simp [nth, List.getD_eq_getElem?_getD, List.getElem?_map,
    List.getElem?_eq_getElem, h]

theorem nth_zipWith (f : ℝ → ℝ → ℝ) {x y : List ℝ} {k : ℕ}
    (hx : k < x.length) (hy : k < y.length) :
    nth (List.zipWith f x y) k = f (nth x k) (nth y k) := by
  have hk : k < (List.zipWith f x y).length := by
    simp [List.length_zipWith]; omega
  simp [nth, List.getD_eq_getElem?_getD, List.getElem?_eq_getElem, hk, hx, hy,
    List.getElem_zipWith]

theorem nth_replicate_zero {n k : ℕ} : nth (List.replicate n (0:ℝ)) k = 0 := by
  simp only [nth, List.getD_eq_getElem?_getD, List.getElem?_replicate]
  split <;> rfl

theorem nth_out_of_range {l : List ℝ} {i : ℕ} (h : l.length ≤ i) : nth l i = 0 := by
  simp only [nth, List.getD_eq_getElem?_getD]
  rw [List.getElem?_eq_none h]
  rfl

theorem listSum_eq_sum_nth (l : List ℝ) :
    l.sum = ∑ i in Finset.range l.length, nth l i := by
  induction l with
  | nil => simp
  | cons a t ih =>
      simp only [List.sum_cons, List.length_cons]
      rw [Finset.sum_range_succ']
      simp [ih, nth, add_comm]

/-! ## Auxiliary lemmas about the loss tensors -/

/-- Each summand of the KL reduction, `1 + 2*stddev - mean^2 - exp(2*stddev)`,
is nonpositive, by `x + 1 ≤ exp x` at `x = 2*stddev` and `mean^2 ≥ 0`
(out-of-range reads contribute the junk value `0`). -/
theorem latent_loss_term_nonpos (m s : List ℝ) (idx : ℕ) :
    nth (tSub (tSub (scalarAdd 1 (scalarMul 2 s)) (tSquare m)) (tExp (scalarMul 2 s))) idx ≤ 0 := by
  by_cases hidx : idx < (tSub (tSub (scalarAdd 1 (scalarMul 2 s)) (tSquare m)) (tExp (scalarMul 2 s))).length
  · have hlens : idx < s.length ∧ idx < m.length := by
      simp only [tSub, tSquare, scalarAdd, scalarMul, tExp, List.length_zipWith,
        List.length_map, lt_min_iff] at hidx
      exact ⟨hidx.1.1, hidx.1.2⟩
    have h1 : idx < (tSub (scalarAdd 1 (scalarMul 2 s)) (tSquare m)).length := by
      simp only [tSub, tSquare, scalarAdd, scalarMul, List.length_zipWith, List.length_map, lt_min_iff]
      exact ⟨hlens.1, hlens.2⟩
    have h2 : idx < (tExp (scalarMul 2 s)).length := by
      simp only [tExp, scalarMul, List.length_map]
      exact hlens.1
    have h3 : idx < (scalarAdd 1 (scalarMul 2 s)).length := by
      simp only [scalarAdd, scalarMul, List.length_map]; exact hlens.1
    have h4 : idx < (tSquare m).length := by
      simp only [tSquare, List.length_map]; exact hlens.2
    have h5 : idx < (scalarMul 2 s).length := by
      simp only [scalarMul, List.length_map]; exact hlens.1
    rw [tSub, nth_zipWith _ h1 h2]
    rw [tSub, nth_zipWith _ h3 h4]
    rw [tExp, nth_map _ h5]
    rw [scalarAdd, nth_map _ h5]
    rw [tSquare, nth_map _ hlens.2]
    rw [scalarMul, nth_map _ hlens.1]
    have he := Real.add_one_le_exp (2 * nth s idx)
    have hm2 := sq_nonneg (nth m idx)
    nlinarith
  · push_neg at hidx
    rw [nth_out_of_range hidx]

/-- Pointwise description of the graph's `latent_loss` node: row `i` equals
the closed-form KL expression of the spec. -/
theorem latent_loss_nth {b : ℕ} {m s : List ℝ} (hm : m.length = b * n_latent)
    (hs : s.length = b * n_latent) {i : ℕ} (h : i < b) :
    nth (latent_loss b m s) i = specKlLoss m s i := by
  have hlen1 : (reduceSumAxis1 b n_latent
      (tSub (tSub (scalarAdd 1 (scalarMul 2 s)) (tSquare m)) (tExp (scalarMul 2 s)))).length = b := by
    simp [reduceSumAxis1]
  rw [latent_loss, scalarMul, nth_map _ (by rw [hlen1]; exact h)]
  rw [reduceSumAxis1, nth_map_range _ h, specKlLoss]
  congr 1
  apply Finset.sum_congr rfl
  intro j hj
  have hj8 : j < n_latent := Finset.mem_range.mp hj
  have hidx : i * n_latent + j < b * n_latent := by
    simp only [n_latent] at hj8 ⊢
    omega
  have h5 : i * n_latent + j < (scalarMul 2 s).length := by
    simp only [scalarMul, List.length_map, hs]; exact hidx
  have h3 : i * n_latent + j < (scalarAdd 1 (scalarMul 2 s)).length := by
    simp only [scalarAdd, scalarMul, List.length_map, hs]; exact hidx
  have h4 : i * n_latent + j < (tSquare m).length := by
    simp only [tSquare, List.length_map, hm]; exact hidx
  have h1 : i * n_latent + j < (tSub (scalarAdd 1 (scalarMul 2 s)) (tSquare m)).length := by
    simp only [tSub, tSquare, scalarAdd, scalarMul, List.length_zipWith, List.length_map,
      hm, hs, lt_min_iff]
    exact ⟨hidx, hidx⟩
  have h2 : i * n_latent + j < (tExp (scalarMul 2 s)).length := by
    simp only [tExp, scalarMul, List.length_map, hs]; exact hidx
  have hsi : i * n_latent + j < s.length := by rw [hs]; exact hidx
  have hmi : i * n_latent + j < m.length := by rw [hm]; exact hidx
  rw [tSub, nth_zipWith _ h1 h2]
  rw [tSub, nth_zipWith _ h3 h4]
  rw [tExp, nth_map _ h5]
  rw [scalarAdd, nth_map _ h5]
  rw [tSquare, nth_map _ hmi]
  rw [scalarMul, nth_map _ hsi]

/-- Pointwise description of the graph's `img_loss` node: row `i` equals the
spec's sum of squared pixel differences. -/
theorem img_loss_nth {b : ℕ} {img y : List ℝ} (himg : img.length = b * image_size_flat)
    (hy : y.length = b * image_size_flat) {i : ℕ} (h : i < b) :
    nth (img_loss b img y) i = specReconLoss img y i := by
  rw [img_loss, reduceSumAxis1, nth_map_range _ h, specReconLoss]
  apply Finset.sum_congr rfl
  intro t ht
  have ht' : t < image_size_flat := Finset.mem_range.mp ht
  have hidx : i * image_size_flat + t < b * image_size_flat := by
    simp only [image_size_flat, image_size, image_channel] at ht' ⊢
    omega
  rw [squaredDifference, nth_zipWith _ (by rw [himg]; exact hidx) (by rw [hy]; exact hidx)]

/-- The graph's scalar `loss` node is the spec's arithmetic mean over the
batch of per-example reconstruction plus KL losses. -/
theorem loss_eq_spec (b : ℕ) (img y m s : List ℝ) :
    loss b img y m s = specTotalLoss b (img_loss b img y) (latent_loss b m s) := by
  have hIL : (img_loss b img y).length = b := by simp [img_loss, reduceSumAxis1]
  have hLL : (latent_loss b m s).length = b := by
    simp [latent_loss, scalarMul, reduceSumAxis1]
  have hlen : (tAdd (img_loss b img y) (latent_loss b m s)).length = b := by
    simp [tAdd, List.length_zipWith, hIL, hLL]
  rw [loss, reduceMean, specTotalLoss, listSum_eq_sum_nth, hlen]
  congr 1
  apply Finset.sum_congr rfl
  intro i hi
  have hi' : i < b := Finset.mem_range.mp hi
  rw [tAdd, nth_zipWith _ (by rw [hIL]; exact hi') (by rw [hLL]; exact hi')]

/-! ## The claims -/

/-- C1: the claim says the decoder's output shape equals the encoder's input
shape, with output `(24, 28, 28, 1)` on a batch of 24.  On the code, the
encoder part holds — `mean`, `stddev`, `noise` and `z` all have shape
`(24, 8)` — but the decoder's reshape `[-1, 16, 16, 1]` of the `(24, 32)`
second-dense output folds eight batch rows into each `16×16` feature map, so
the decoder returns shape `(3, 28, 28, 1)`, not `(24, 28, 28, 1)`: the shape
pipeline evaluated at the failing batch size 24 contradicts the claim. -/
theorem c1_shape_at_batch24 :
    encoderShapes batch_size =
      some ⟨[batch_size, n_latent], [batch_size, n_latent],
            [batch_size, n_latent], [batch_size, n_latent]⟩
    ∧ decoderShapes [batch_size, n_latent]
        = some [3, image_size, image_size, image_channel]
    ∧ decoderShapes [batch_size, n_latent]
        ≠ some [batch_size, image_size, image_size, image_channel] := by
  refine ⟨by decide, by decide, by decide⟩

/-- C2 counterexample: the claim says `log_stddev` is the raw output of its
dedicated linear projection, not a rescaling of it.  With all conv weights
zero and the `stddev` projection having zero kernel and bias one, the raw
projection output at index 0 is `1` but the encoder's `stddev` is `0.5` —
the source line is `stddev = 0.5 * tf.layers.dense(X, units=n_latent)`. -/
theorem c2_stddev_rescaled_counterexample :
    nth (encoderRawStdDense biasOneStdParams allKeepMasks 1 (List.replicate image_size_flat 0)) 0 = 1
    ∧ nth (encoderStddev biasOneStdParams allKeepMasks 1 (List.replicate image_size_flat 0)) 0 = 1/2
    ∧ nth (encoderStddev biasOneStdParams allKeepMasks 1 (List.replicate image_size_flat 0)) 0
      ≠ nth (encoderRawStdDense biasOneStdParams allKeepMasks 1 (List.replicate image_size_flat 0)) 0 := by
  have hraw : nth (encoderRawStdDense biasOneStdParams allKeepMasks 1 (List.replicate image_size_flat 0)) 0 = 1 := by
    rw [encoderRawStdDense, denseData, nth_map_range _ (by norm_num [n_latent])]
    simp [biasOneStdParams]
  have hlen : 0 < (encoderRawStdDense biasOneStdParams allKeepMasks 1 (List.replicate image_size_flat 0)).length := by
    rw [encoderRawStdDense, denseData]
    simp [n_latent]
  have hstd : nth (encoderStddev biasOneStdParams allKeepMasks 1 (List.replicate image_size_flat 0)) 0 = 1/2 := by
    rw [encoderStddev, nth_map _ hlen, hraw]
    norm_num
  exact ⟨hraw, hstd, by rw [hstd, hraw]; norm_num⟩

/-- C2 amended: `log_stddev` is `0.5` times the output of its dedicated
linear projection, the sampled latent is `z = mean + noise * exp(log_stddev)`
elementwise, and the graph's KL node consumes exactly the `mean` and
`stddev` tensors the encoder returns (the same `log_stddev` value in both
places). -/
theorem c2_reparameterization_amended (P : EncoderParams) (M : EncoderMasks) (noise : ℕ → ℝ)
    (b : ℕ) (data : List ℝ) (idx : ℕ) (h : idx < b * n_latent) :
    nth (encoderData P M noise b data).1 idx
      = nth (encoderData P M noise b data).2.1 idx
        + noise idx * Real.exp (nth (encoderData P M noise b data).2.2 idx)
    ∧ nth (encoderData P M noise b data).2.2 idx
      = 0.5 * nth (encoderRawStdDense P M b data) idx
    ∧ graphLatentLoss P M noise b data
      = latent_loss b (encoderMean P M b data) (encoderStddev P M b data) := by
  refine ⟨?_, ?_, rfl⟩
  · show nth (encoderZ P M noise b data) idx = _
    rw [encoderZ, nth_map_range _ h]
    rfl
  · show nth (encoderStddev P M b data) idx = _
    have hlen : idx < (encoderRawStdDense P M b data).length := by
      rw [encoderRawStdDense, denseData]
      simpa using h
    rw [encoderStddev, nth_map _ hlen]

/-- C2 amended, witness at a concrete input: batch 1, all-zero parameters,
zero noise, empty image buffer, latent index 0. -/
theorem c2_reparameterization_amended_witness :
    0 < 1 * n_latent
    ∧ nth (encoderData zeroEncoderParams allKeepMasks (fun _ => 0) 1 []).2.2 0
        = 0.5 * nth (encoderRawStdDense zeroEncoderParams allKeepMasks 1 []) 0 :=
  ⟨by norm_num [n_latent],
   (c2_reparameterization_amended zeroEncoderParams allKeepMasks (fun _ => 0) 1 [] 0
      (by norm_num [n_latent])).2.1⟩

/-- C3: for every example `i` of the batch, the graph's KL node — wired to
the encoder's outputs — equals `-0.5 * sum over the latent dimensions of
(1 + 2*log_stddev[i] - mean[i]^2 - exp(2*log_stddev[i]))`, where `mean` is
the encoder's second output and `log_stddev` its third output. -/
theorem c3_latent_loss_formula (P : EncoderParams) (M : EncoderMasks) (noise : ℕ → ℝ)
    (b : ℕ) (data : List ℝ) (i : ℕ) (h : i < b) :
    nth (graphLatentLoss P M noise b data) i
      = specKlLoss (encoderData P M noise b data).2.1 (encoderData P M noise b data).2.2 i := by
  have hm : (encoderData P M noise b data).2.1.length = b * n_latent := by
    simp [encoderData, encoderMean, denseData]
  have hs : (encoderData P M noise b data).2.2.length = b * n_latent := by
    simp [encoderData, encoderStddev, encoderRawStdDense, denseData]
  exact latent_loss_nth hm hs h

/-- C3, witness at a concrete input: batch 1, all-zero parameters, zero
noise, empty image buffer, example 0. -/
theorem c3_latent_loss_formula_witness :
    0 < 1
    ∧ nth (graphLatentLoss zeroEncoderParams allKeepMasks (fun _ => 0) 1 []) 0
        = specKlLoss (encoderData zeroEncoderParams allKeepMasks (fun _ => 0) 1 []).2.1
            (encoderData zeroEncoderParams allKeepMasks (fun _ => 0) 1 []).2.2 0 :=
  ⟨Nat.one_pos, c3_latent_loss_formula zeroEncoderParams allKeepMasks (fun _ => 0) 1 [] 0 Nat.one_pos⟩

/-- C4: on `(b, image_size_flat)` reconstruction and target tensors, the
per-example reconstruction loss is the sum over pixels of the squared
difference, and the scalar training loss is the arithmetic mean over the
batch of reconstruction loss plus KL loss. -/
theorem c4_loss_decomposition (b : ℕ) (img y m s : List ℝ)
    (himg : img.length = b * image_size_flat) (hy : y.length = b * image_size_flat) :
    (∀ i, i < b → nth (img_loss b img y) i = specReconLoss img y i)
    ∧ loss b img y m s = specTotalLoss b (img_loss b img y) (latent_loss b m s) :=
  ⟨fun _ h => img_loss_nth himg hy h, loss_eq_spec b img y m s⟩

/-- C4, witness at a concrete input: batch 1 with all-zero reconstruction,
target, mean and stddev tensors. -/
theorem c4_loss_decomposition_witness :
    (List.replicate (1 * image_size_flat) (0:ℝ)).length = 1 * image_size_flat
    ∧ ((∀ i, i < 1 → nth (img_loss 1 (List.replicate (1 * image_size_flat) (0:ℝ))
          (List.replicate (1 * image_size_flat) (0:ℝ))) i
            = specReconLoss (List.replicate (1 * image_size_flat) (0:ℝ))
                (List.replicate (1 * image_size_flat) (0:ℝ)) i)
        ∧ loss 1 (List.replicate (1 * image_size_flat) (0:ℝ))
            (List.replicate (1 * image_size_flat) (0:ℝ))
            (List.replicate n_latent (0:ℝ)) (List.replicate n_latent (0:ℝ))
          = specTotalLoss 1
              (img_loss 1 (List.replicate (1 * image_size_flat) (0:ℝ))
                (List.replicate (1 * image_size_flat) (0:ℝ)))
              (latent_loss 1 (List.replicate n_latent (0:ℝ)) (List.replicate n_latent (0:ℝ)))) :=
  ⟨by simp,
   c4_loss_decomposition 1 (List.replicate (1 * image_size_flat) (0:ℝ))
     (List.replicate (1 * image_size_flat) (0:ℝ))
     (List.replicate n_latent (0:ℝ)) (List.replicate n_latent (0:ℝ)) (by simp) (by simp)⟩

/-- C5 counterexample: the claim says a restore is triggered iff the
checkpoint directory is non-empty; but when the directory exists and holds
exactly one entry (non-empty), the code's condition
`len(os.listdir(save_path)) > 1` is false and no restore happens. -/
theorem c5_restore_counterexample :
    0 < 1 ∧ (checkpointStartup true 1).restored = false := by decide

/-- C5 amended: a restore is triggered iff the checkpoint directory exists
and contains more than one entry; the directory is created iff it does not
exist. -/
theorem c5_restore_amended (dirExists : Bool) (numEntries : ℕ) :
    ((checkpointStartup dirExists numEntries).restored = true
      ↔ (dirExists = true ∧ 1 < numEntries))
    ∧ ((checkpointStartup dirExists numEntries).createdDir = !dirExists) := by
  cases dirExists <;> simp [checkpointStartup]

/-- C6: the logging statement references the name `start_time`, which is not
bound anywhere in the notebook (the timer variable is bound as
`train_start`), so its first execution raises `NameError` instead of
emitting the claimed console line. -/
theorem c6_log_statement_unbound_name :
    firstUnboundLogName = some "start_time"
    ∧ boundNamesAtLogStatement.contains "train_start" = true := ⟨rfl, rfl⟩

/-- C7: two forward passes of the embedded encoder on the same input batch,
the same parameters and the same dropout masks, differing only in the
explicit Gaussian noise draw, return identical `mean` and identical
`stddev` but different `z` whenever the two noise draws differ at some
latent coordinate (since `exp(stddev) > 0`). -/
theorem c7_encoder_two_runs (P : EncoderParams) (M : EncoderMasks) (b : ℕ) (data : List ℝ)
    (noise1 noise2 : ℕ → ℝ) (k : ℕ) (hk : k < b * n_latent)
    (hne : noise1 k ≠ noise2 k) :
    (encoderData P M noise1 b data).2.1 = (encoderData P M noise2 b data).2.1
    ∧ (encoderData P M noise1 b data).2.2 = (encoderData P M noise2 b data).2.2
    ∧ (encoderData P M noise1 b data).1 ≠ (encoderData P M noise2 b data).1 := by
  refine ⟨rfl, rfl, ?_⟩
  intro hEq
  have h1 : nth (encoderZ P M noise1 b data) k = nth (encoderZ P M noise2 b data) k := by
    simpa [encoderData] using congrArg (fun l => nth l k) hEq
  rw [encoderZ, nth_map_range _ hk] at h1
  rw [encoderZ, nth_map_range _ hk] at h1
  have h2 : noise1 k * Real.exp (nth (encoderStddev P M b data) k)
      = noise2 k * Real.exp (nth (encoderStddev P M b data) k) := by linarith
  exact hne (mul_right_cancel₀ (Real.exp_ne_zero _) h2)

/-- C7, witness at a concrete input: batch 1, all-zero parameters, noise
draws constantly 0 and constantly 1, differing at latent coordinate 0. -/
theorem c7_encoder_two_runs_witness :
    0 < 1 * n_latent
    ∧ ((fun _ : ℕ => (0:ℝ)) 0 ≠ (fun _ : ℕ => (1:ℝ)) 0)
    ∧ (encoderData zeroEncoderParams allKeepMasks (fun _ => 0) 1 []).1
        ≠ (encoderData zeroEncoderParams allKeepMasks (fun _ => 1) 1 []).1 :=
  ⟨by norm_num [n_latent], by norm_num,
   (c7_encoder_two_runs zeroEncoderParams allKeepMasks 1 [] (fun _ => 0) (fun _ => 1) 0
      (by norm_num [n_latent]) (by norm_num)).2.2⟩

/-- C8: when `mean` and `log_stddev` are the zero vectors for every example,
the graph's KL node is identically zero (`1 + 0 - 0 - exp(0) = 0`). -/
theorem c8_kl_zero_at_standard_normal (b : ℕ) :
    latent_loss b (List.replicate (b * n_latent) (0:ℝ)) (List.replicate (b * n_latent) (0:ℝ))
      = List.replicate b 0 := by
  simp [latent_loss, scalarMul, scalarAdd, tSquare, tExp, tSub, reduceSumAxis1,
    List.map_replicate, List.zipWith_replicate, Real.exp_zero, nth_replicate_zero]

/-- C9: the decoder's output does not depend on the parameters of the first
dense expansion — its output `x1` is bound and never used, because the
second dense layer is applied to the original latent `z`; the decoder
applied to any two choices of first-dense weights and biases, all other
parameters equal, returns the same result. -/
theorem c9_first_dense_discarded (wD1 wD1' : ℕ → ℕ → ℝ) (bD1 bD1' : ℕ → ℝ)
    (wD2 : ℕ → ℕ → ℝ) (bD2 : ℕ → ℝ)
    (wT1 : ℕ → ℕ → ℕ → ℕ → ℝ) (bT1 : ℕ → ℝ) (wT2 : ℕ → ℕ → ℕ → ℕ → ℝ) (bT2 : ℕ → ℝ)
    (wT3 : ℕ → ℕ → ℕ → ℕ → ℝ) (bT3 : ℕ → ℝ) (wOut : ℕ → ℕ → ℝ) (bOut : ℕ → ℝ)
    (M : DecoderMasks) (b : ℕ) (z : List ℝ) :
    decoderData ⟨wD1, bD1, wD2, bD2, wT1, bT1, wT2, bT2, wT3, bT3, wOut, bOut⟩ M b z
      = decoderData ⟨wD1', bD1', wD2, bD2, wT1, bT1, wT2, bT2, wT3, bT3, wOut, bOut⟩ M b z := rfl

/-- C10: over exact real arithmetic the graph's per-example KL loss is
non-negative for every `mean` and `stddev` tensor, hence the scalar training
loss is at least the mean of the per-example reconstruction losses. -/
theorem c10_kl_nonneg_loss_lower_bound (b : ℕ) (m s img y : List ℝ) :
    (∀ i, 0 ≤ nth (latent_loss b m s) i)
    ∧ reduceMean (img_loss b img y) ≤ loss b img y m s := by
  have hIL : (img_loss b img y).length = b := by simp [img_loss, reduceSumAxis1]
  have hLL : (latent_loss b m s).length = b := by simp [latent_loss, scalarMul, reduceSumAxis1]
  have hnn : ∀ i, 0 ≤ nth (latent_loss b m s) i := by
    intro i
    by_cases hi : i < b
    · have hlen2 : (reduceSumAxis1 b n_latent
          (tSub (tSub (scalarAdd 1 (scalarMul 2 s)) (tSquare m)) (tExp (scalarMul 2 s)))).length = b := by
        simp [reduceSumAxis1]
      rw [latent_loss, scalarMul, nth_map _ (by rw [hlen2]; exact hi)]
      rw [reduceSumAxis1, nth_map_range _ hi]
      have hsum : (∑ j in Finset.range n_latent,
          nth (tSub (tSub (scalarAdd 1 (scalarMul 2 s)) (tSquare m)) (tExp (scalarMul 2 s)))
            (i * n_latent + j)) ≤ 0 :=
        Finset.sum_nonpos fun j _ => latent_loss_term_nonpos m s _
      nlinarith
    · push_neg at hi
      rw [nth_out_of_range (by rw [hLL]; exact hi)]
  refine ⟨hnn, ?_⟩
  have hlen : (tAdd (img_loss b img y) (latent_loss b m s)).length = b := by
    simp [tAdd, List.length_zipWith, hIL, hLL]
  rw [loss, reduceMean, reduceMean, listSum_eq_sum_nth, listSum_eq_sum_nth, hlen, hIL]
  rcases Nat.eq_zero_or_pos b with hb | hb
  · subst hb; simp
  · have hb' : (0:ℝ) < b := by exact_mod_cast hb
    rw [div_le_div_iff_of_pos_right]
    · apply Finset.sum_le_sum
      intro i hi
      have hi' : i < b := Finset.mem_range.mp hi
      rw [tAdd, nth_zipWith _ (by rw [hIL]; exact hi') (by rw [hLL]; exact hi')]
      have := hnn i
      linarith
    · exact hb'

end VAE
